import Mathlib

/-!
Verification of the UmmahWay TV display (mosque digital-signage web app):
shallow embedding of its schedule utilities, service-worker cache
strategies, and the weather/hadith proxy routes, with theorems checking
the natural-language specification against the code.

Conventions for embedding the JavaScript/TypeScript source:
* JS machine numbers that can only hold parsed integers are `Int`/`Nat`;
  JSON numbers are `ℚ`; `JSNum` adds the non-finite JS values (NaN, ±∞).
* A JS value of type `T | null` becomes `Option T` (`none` = `null`).
* `Math.floor(a / b)` is `Int.fdiv a b`; the JS `%` operator (truncated
  remainder, sign of the dividend) is `Int.mod`.
* Effectful inputs (the wall clock, `Intl` formatting, `fetch`, the
  Cache API) become explicit parameters/oracles, so every function here
  is a pure function of its inputs, exactly mirroring the source's
  control flow on those inputs.
-/

/-- Decidable equality for route results (`Except`), so that concrete
route evaluations can be checked by `decide`. -/
instance exceptDecEq {ε α : Type} [DecidableEq ε] [DecidableEq α] :
    DecidableEq (Except ε α) := fun a b =>
  match a, b with
  | .ok x, .ok y =>
    if h : x = y then isTrue (by rw [h]) else isFalse (by simp [h])
  | .error x, .error y =>
    if h : x = y then isTrue (by rw [h]) else isFalse (by simp [h])
  | .ok _, .error _ => isFalse (by simp)
  | .error _, .ok _ => isFalse (by simp)

/-- Split a character list at every occurrence of `sep`, like JS
`String.prototype.split` with a one-character separator (the empty
string splits to `[""]`). -/
def splitOnChar (sep : Char) : List Char → List (List Char)
  | [] => [[]]
  | c :: cs =>
    let rest := splitOnChar sep cs
    if c = sep then [] :: rest
    else
      match rest with
      | [] => [[c]]
      | h :: t => (c :: h) :: t

/-- The value of a nonempty all-digit character list; `none` otherwise. -/
def digitsVal (cs : List Char) : Option Nat :=
  if cs ≠ [] ∧ cs.all Char.isDigit then
    some (cs.foldl (fun a c => a * 10 + (c.toNat - 48)) 0)
  else none

/-- JS `Number(string)` coercion, modelled on the decimal-literal domain
that reaches it in this program (optional minus sign, digits, optional
single decimal point): the empty string coerces to 0, a decimal literal
to its value, everything else to NaN (`none`). -/
def jsStringToNumQ (s : String) : Option ℚ :=
  match s.data with
  | [] => some 0
  | all =>
    let (neg, body) : Bool × List Char :=
      match all with
      | '-' :: rest => (true, rest)
      | _ => (false, all)
    let absVal : Option ℚ :=
      match splitOnChar '.' body with
      | [i] => (digitsVal i).map (fun n => (n : ℚ))
      | [i, f] =>
        if i = [] ∧ f = [] then none
        else
          match (if i = [] then some 0 else digitsVal i),
              (if f = [] then some 0 else digitsVal f) with
          | some a, some b => some ((a : ℚ) + (b : ℚ) / ((10 : ℚ) ^ f.length))
          | _, _ => none
      | _ => none
    absVal.map (fun q => if neg then -q else q)

/-- JS `Number(string)` restricted to the digit strings that appear in
time fields (`"HH:MM:SS"` pieces): empty string is 0, a digit string is
its value, anything else is NaN (`none`). -/
def jsStringToInt (cs : List Char) : Option Int :=
  if cs = [] then some 0 else (digitsVal cs).map (fun n => (n : Int))

section ScheduleUtilities

/-- The five canonical prayer names (`PrayerKey` in the source). -/
inductive PrayerKey
  | fajr | dhuhr | asr | maghrib | isha
deriving DecidableEq, Repr

/-- `PRAYER_ORDER`: the fixed canonical scan order. -/
def PRAYER_ORDER : List PrayerKey :=
  [.fajr, .dhuhr, .asr, .maghrib, .isha]

/-- `PrayerRow`: one (prayer, date) row with wall-clock time strings. -/
structure PrayerRow where
  prayer : PrayerKey
  start_time : String
  jamaat_time : String
  date : String
deriving DecidableEq, Repr

/-- Result record `{ prayer, mins }` of `computeNextPrayer`. -/
structure NextPrayer where
  prayer : PrayerKey
  mins : Int
deriving DecidableEq, Repr

/-- `timeToMinutes` (TVClient.tsx): `null` for an empty/absent string,
otherwise parse `t.slice(0,5).split(":")`, demand both fields are
finite numbers, and return `hh*60+mm`; `null` on any failure. -/
def timeToMinutes (t : String) : Option Int :=
  if t.data = [] then none
  else
    let parts := (splitOnChar ':' (t.data.take 5)).map jsStringToInt
    match (parts.get? 0).join, (parts.get? 1).join with
    | some hh, some mm => some (hh * 60 + mm)
    | _, _ => none

/-- `timeToMins` (Aurora variant): same contract as `timeToMinutes`. -/
def timeToMins (t : String) : Option Int :=
  if t.data = [] then none
  else
    let parts := (splitOnChar ':' (t.data.take 5)).map jsStringToInt
    match (parts.get? 0).join, (parts.get? 1).join with
    | some h, some m => some (h * 60 + m)
    | _, _ => none

/-- The legacy board variant's inline
`const [hh, mm] = row.jamaat_time.slice(0,5).split(":").map(Number)`
followed by `hh * 60 + mm`: no finiteness check, so a missing or
non-numeric field yields NaN (`none`) instead of being rejected. -/
def timeToMinutesLegacy (t : String) : Option Int :=
  let parts := (splitOnChar ':' (t.data.take 5)).map jsStringToInt
  match (parts.get? 0).join, (parts.get? 1).join with
  | some hh, some mm => some (hh * 60 + mm)
  | _, _ => none

/-- One iteration of the `for (const key of PRAYER_ORDER)` loop body of
`computeNextPrayer` (TVClient.tsx): find the first row of `key`, skip
the key when there is none or its jamaat time does not parse, and
return `{ prayer: key, mins }` when `mins >= minutesNow`. -/
def nextPrayerScanStep (todayRows : List PrayerRow) (minutesNow : Int)
    (key : PrayerKey) : Option NextPrayer :=
  match todayRows.find? (fun r => r.prayer == key) with
  | none => none
  | some row =>
    match timeToMinutes row.jamaat_time with
    | none => none
    | some mins => if mins ≥ minutesNow then some ⟨key, mins⟩ else none

/-- `computeNextPrayer` (TVClient.tsx), with the `nowInTimeZone` call
factored into the `today` date key and `minutesNow` parameters: filter
to today's rows, scan `PRAYER_ORDER` for the first prayer whose found
row has a parseable jamaat time `≥ minutesNow`, else fall back to the
fajr row (today's fajr minutes), else `null`. -/
def computeNextPrayer (prayers : List PrayerRow) (today : String)
    (minutesNow : Int) : Option NextPrayer :=
  let todayRows := prayers.filter (fun p => p.date == today)
  match PRAYER_ORDER.findSome? (nextPrayerScanStep todayRows minutesNow) with
  | some res => some res
  | none =>
    match todayRows.find? (fun r => r.prayer == .fajr) with
    | none => none
    | some first =>
      match timeToMinutes first.jamaat_time with
      | none => none
      | some mins => some ⟨.fajr, mins⟩

/-- `getNextPrayer` (Aurora variant): the same forward scan, but with
NO fajr fallback — when every prayer today has passed it returns
`null`.  The result also carries the row and the raw difference. -/
structure NextInfoAurora where
  key : PrayerKey
  row : PrayerRow
  mins : Int
  diff : Int
deriving DecidableEq, Repr

/-- `getNextPrayer` (Aurora variant, part_001). -/
def getNextPrayer (prayers : List PrayerRow) (today : String)
    (nowM : Int) : Option NextInfoAurora :=
  let todayRows := prayers.filter (fun p => p.date == today)
  PRAYER_ORDER.findSome? (fun key =>
    match todayRows.find? (fun r => r.prayer == key) with
    | none => none
    | some row =>
      match timeToMins row.jamaat_time with
      | none => none
      | some mins =>
        if mins ≥ nowM then some ⟨key, row, mins, mins - nowM⟩ else none)

/-- The legacy board variant's `computeNextPrayer` (the copy bundled in
the route.ts source group): no finiteness check on the parsed time, so
the minute value is `Option Int` with `none` standing for NaN.  In the
scan `NaN >= minutesNow` is false, so a malformed row merely skips its
prayer; but the fajr fallback returns `hh*60+mm` unchecked and can
therefore hand back a NaN minute value. -/
def computeNextPrayerLegacy (prayers : List PrayerRow) (today : String)
    (minutesNow : Int) : Option (PrayerKey × Option Int) :=
  let todayRows := prayers.filter (fun p => p.date == today)
  match PRAYER_ORDER.findSome? (fun key =>
      match todayRows.find? (fun r => r.prayer == key) with
      | none => none
      | some row =>
        match timeToMinutesLegacy row.jamaat_time with
        | none => none
        | some mins =>
          if mins ≥ minutesNow then some (key, some mins) else none) with
  | some res => some res
  | none =>
    match todayRows.find? (fun r => r.prayer == .fajr) with
    | none => none
    | some first => some (.fajr, timeToMinutesLegacy first.jamaat_time)

/-- The countdown block of TVClient.tsx: `diff = next.mins - nowM`,
add `24*60` when negative, then `h = Math.floor(diff/60)`,
`m = diff % 60`, formatted `"{m} min"` when `h ≤ 0`, else
`"{h}h {m}m"`; em-dash when there is no next prayer. -/
def countdownTV (next : Option NextPrayer) (nowM : Int) : String :=
  match next with
  | none => "—"
  | some nx =>
    let diff0 := nx.mins - nowM
    let diff := if diff0 < 0 then diff0 + 24 * 60 else diff0
    let h := Int.fdiv diff 60
    let m := Int.tmod diff 60
    if h ≤ 0 then s!"{m} min" else s!"{h}h {m}m"

/-- `formatCountdown` (Aurora variant): under an hour `"{mins} min"`;
otherwise `"{h}h"` when the minute remainder is zero, else
`"{h}h {m}m"`. -/
def formatCountdown (mins : Int) : String :=
  if mins < 60 then s!"{mins} min"
  else
    let h := Int.fdiv mins 60
    let m := Int.tmod mins 60
    if m = 0 then s!"{h}h" else s!"{h}h {m}m"

/-- Claim-side reading of the spec's `nextPrayer`: does some row of
`key` have a jamaat-time in minutes since midnight that is `≥` the
current minutes-since-midnight? -/
def rowQualifies (minutesNow : Int) (key : PrayerKey) (r : PrayerRow) : Bool :=
  r.prayer == key &&
    (match timeToMinutes r.jamaat_time with
     | some m => m ≥ minutesNow
     | none => false)

/-- "Return that prayer as next": `key`'s row together with its
minute-since-midnight value (nothing if no such row or no value). -/
def nextPrayerExtract (todayRows : List PrayerRow) (key : PrayerKey) :
    Option NextPrayer :=
  (todayRows.find? (fun r => r.prayer == key)).bind
    (fun r => (timeToMinutes r.jamaat_time).map (fun m => ⟨key, m⟩))

/-- The spec's words for `nextPrayer`, written independently of the
implementation for the refinement proof: restrict to rows of the
current local date; return the first prayer in canonical order that HAS
a row whose jamaat-time in minutes is `≥` the current local
minutes-since-midnight (with that row's minute value); if no prayer
qualifies, return fajr's row with today's fajr minute value; if no fajr
row (or its time does not resolve to a minute value), return nothing. -/
def nextPrayerSpec (prayers : List PrayerRow) (today : String)
    (minutesNow : Int) : Option NextPrayer :=
  let todayRows := prayers.filter (fun p => p.date == today)
  match PRAYER_ORDER.find? (fun key => todayRows.any (rowQualifies minutesNow key)) with
  | some key => nextPrayerExtract todayRows key
  | none => nextPrayerExtract todayRows .fajr

/-- The spec's words for `countdown`, written independently of the
implementation: the total is `next.mins` minus the current local
minutes-since-midnight, plus 1440 when that difference is negative; it
is formatted `"{minutes} min"` when under one hour and
`"{hours}h {minutes}m"` otherwise. -/
def countdownSpec (nx : NextPrayer) (nowM : Int) : String :=
  let raw := nx.mins - nowM
  let total := if raw < 0 then raw + 1440 else raw
  let hours := Int.fdiv total 60
  let minutes := Int.tmod total 60
  if total < 60 then s!"{total} min" else s!"{hours}h {minutes}m"

/-- The spec invariant "one row per prayer per date", restricted to the
rows of the given date: any two rows of `rows` dated `today` with the
same prayer name are the same row. -/
abbrev OneRowPerPrayer (rows : List PrayerRow) (today : String) : Prop :=
  ∀ r₁ ∈ rows, ∀ r₂ ∈ rows,
    r₁.date = today → r₂.date = today → r₁.prayer = r₂.prayer → r₁ = r₂

end ScheduleUtilities

section ServiceWorker

/-- An HTTP response as the cache strategies observe it: status, body,
headers.  HTTP-error statuses (4xx/5xx) are ordinary responses here;
only a network-level failure is "no response". -/
structure Resp where
  status : Nat
  body : String
  headers : List (String × String)
deriving DecidableEq, Repr

/-- One named browser cache: request URL to stored response, newest
entry first (the platform's per-key `put` is modelled by consing, and
`match` reads the newest entry). -/
abbrev Cache := List (String × Resp)

/-- `cache.match(request)` on a single named cache. -/
def cacheMatch (c : Cache) (url : String) : Option Resp :=
  (c.find? (fun e => e.1 == url)).map (fun e => e.2)

/-- `cache.put(request, response)`. -/
def cachePut (c : Cache) (url : String) (v : Resp) : Cache :=
  (url, v) :: c

/-- The worker's two named caches (`ummahway-shell-v1`,
`ummahway-api-v1`). -/
structure SWCaches where
  shell : Cache
  api : Cache
deriving DecidableEq, Repr

/-- The global `caches.match(request)`: search every named cache, the
app-shell cache first. -/
def cachesMatch (st : SWCaches) (url : String) : Option Resp :=
  match cacheMatch st.shell url with
  | some r => some r
  | none => cacheMatch st.api url

/-- `cacheFirst(request)` from the service worker, with `fetch`
abstracted as the oracle `net` (`none` = network-level failure, which
this strategy does not catch).  Returns the produced response together
with the updated caches (`none` when the strategy throws), paired with
the number of network fetches issued. -/
def cacheFirst (st : SWCaches) (net : String → Option Resp)
    (url : String) : Option (Resp × SWCaches) × Nat :=
  match cachesMatch st url with
  | some cached => (some (cached, st), 0)
  | none =>
    match net url with
    | some fresh =>
      (some (fresh, { st with shell := cachePut st.shell url fresh }), 1)
    | none => (none, 1)

/-- The synthesized offline response of `networkFirst`: a 503 whose
JSON body is the stringified `\x7b error: "Offline and no cache" \x7d`. -/
def offlineResponse : Resp :=
  ⟨503, "\x7b\"error\":\"Offline and no cache\"\x7d",
   [("Content-Type", "application/json")]⟩

/-- `networkFirst(request)` from the service worker: try the network;
on success store a clone in the API cache and return it (any HTTP
status); on a thrown fetch fall back to `caches.match`, else the
synthesized 503.  Always issues exactly one fetch. -/
def networkFirst (st : SWCaches) (net : String → Option Resp)
    (url : String) : (Resp × SWCaches) × Nat :=
  match net url with
  | some fresh => ((fresh, { st with api := cachePut st.api url fresh }), 1)
  | none =>
    match cachesMatch st url with
    | some cached => ((cached, st), 1)
    | none => ((offlineResponse, st), 1)

end ServiceWorker

section JSValues

/-- A JS number: a finite rational, NaN, or a signed infinity. -/
inductive JSNum
  | finite (q : ℚ)
  | nan
  | inf
  | ninf
deriving DecidableEq, Repr

/-- The dynamically-typed JSON/JS values flowing through the proxies. -/
inductive JSVal
  | undefined
  | jsNull
  | num (n : JSNum)
  | str (s : String)
  | boolV (b : Bool)
deriving DecidableEq, Repr

/-- `Number(string)` as a JS number (NaN instead of `none`). -/
def jsNumberOfString (s : String) : JSNum :=
  match jsStringToNumQ s with
  | some q => .finite q
  | none => .nan

/-- JS truthiness of the modelled values. -/
def jsTruthy : JSVal → Bool
  | .undefined => false
  | .jsNull => false
  | .num (.finite q) => decide (q ≠ 0)
  | .num .nan => false
  | .num .inf => true
  | .num .ninf => true
  | .str s => !s.isEmpty
  | .boolV b => b

/-- JS `String(v)` coercion (number formatting is abstracted; every
value that is actually stringified by this program is a string). -/
def jsToString : JSVal → String
  | .undefined => "undefined"
  | .jsNull => "null"
  | .num (.finite q) => toString q
  | .num .nan => "NaN"
  | .num .inf => "Infinity"
  | .num .ninf => "-Infinity"
  | .str s => s
  | .boolV b => if b then "true" else "false"

/-- The JS `??` operator: the right operand when the left is
`null`/`undefined`. -/
def jsCoalesce (a b : JSVal) : JSVal :=
  match a with
  | .undefined => b
  | .jsNull => b
  | _ => a

/-- JS `Number(v)` coercion on the modelled values. -/
def jsToNumber : JSVal → JSNum
  | .undefined => .nan
  | .jsNull => .finite 0
  | .num n => n
  | .str s => jsNumberOfString s
  | .boolV b => .finite (if b then 1 else 0)

/-- JS `String.prototype.trim()`. -/
def jsTrim (s : String) : String :=
  String.mk
    (((s.data.dropWhile Char.isWhitespace).reverse.dropWhile
        Char.isWhitespace).reverse)

end JSValues

section WeatherProxy

/-- `num` from the weather route: keep a finite number, send everything
else (NaN, infinities, strings, null, undefined, booleans) to `null`. -/
def num (v : JSVal) : Option ℚ :=
  match v with
  | .num (.finite q) => some q
  | _ => none

/-- One geocoding result as read by the route
(`first?.latitude` etc.). -/
structure GeoResult where
  name : JSVal
  admin1 : JSVal
  country : JSVal
  latitude : JSVal
  longitude : JSVal
deriving DecidableEq, Repr

/-- The geocoding payload: its `results` array. -/
structure GeoPayload where
  results : List GeoResult
deriving DecidableEq, Repr

/-- The forecast payload fields the route reads (`f?.daily?.time || []`
and friends; a missing array is the empty list, a missing scalar is
`undefined`). -/
structure ForecastPayload where
  current_temperature : JSVal
  current_weathercode : JSVal
  daily_time : List String
  daily_tmax : List JSVal
  daily_tmin : List JSVal
  daily_precip : List JSVal
  daily_weathercode : List JSVal
deriving DecidableEq, Repr

/-- One entry of the route's `daily` output array. -/
structure DailyOut where
  date : String
  tmax : Option ℚ
  tmin : Option ℚ
  precipProbMax : Option ℚ
  weathercode : Option ℚ
deriving DecidableEq, Repr

/-- The route's `location` output: note `latitude`/`longitude` are JS
numbers (TS type `number`), so NaN is representable. -/
structure LocationOut where
  name : String
  latitude : JSNum
  longitude : JSNum
deriving DecidableEq, Repr

/-- The route's JSON success output (`WeatherOut` in the source). -/
structure WeatherOut where
  location : LocationOut
  currentTemperature : Option ℚ
  currentWeathercode : Option ℚ
  daily : List DailyOut
deriving DecidableEq, Repr

/-- `[first?.name, first?.admin1, first?.country].filter(Boolean)
.join(", ") || city`. -/
def joinComma : List String → String
  | [] => ""
  | [x] => x
  | x :: rest => x ++ ", " ++ joinComma rest

/-- The geocode-branch display name. -/
def geoLocName (first : Option GeoResult) (city : String) : String :=
  let parts :=
    match first with
    | some f => [f.name, f.admin1, f.country]
    | none => [JSVal.undefined, JSVal.undefined, JSVal.undefined]
  let joined := joinComma ((parts.filter jsTruthy).map jsToString)
  if joined.isEmpty then city else joined

/-- Field read `first?.latitude` (undefined when there is no result). -/
def geoField (first : Option GeoResult) (f : GeoResult → JSVal) : JSVal :=
  match first with
  | some r => f r
  | none => .undefined

/-- The forecast-to-output reshaping of the route: every numeric field
goes through `num`; `daily` maps over `daily.time` with the index into
the per-day arrays (an out-of-range read is `undefined`). -/
def buildWeatherOut (la lo : JSNum) (locName : String)
    (f : ForecastPayload) : WeatherOut :=
  { location := ⟨locName, la, lo⟩
    currentTemperature := num f.current_temperature
    currentWeathercode := num f.current_weathercode
    daily := f.daily_time.mapIdx (fun i date =>
      ⟨date,
       num ((f.daily_tmax.get? i).getD .undefined),
       num ((f.daily_tmin.get? i).getD .undefined),
       num ((f.daily_precip.get? i).getD .undefined),
       num ((f.daily_weathercode.get? i).getD .undefined)⟩) }

/-- The first half of the weather route's `GET`: validate the query
(400 on neither a city nor both coordinates), take `Number(latQ)` /
`Number(lonQ)` when both query coordinates are present (unvalidated),
otherwise geocode (502 when that fetch is not ok, 404 when it yields no
finite coordinates); also resolve the display name. -/
def resolveCoords (city latQ lonQ : String) (geo : Option GeoPayload) :
    Except (Nat × String) (JSNum × JSNum × String) :=
  if city = "" ∧ (latQ = "" ∨ lonQ = "") then
    .error (400, "Missing city (or lat/lon)")
  else
    match (if latQ ≠ "" then some (jsNumberOfString latQ) else none),
        (if lonQ ≠ "" then some (jsNumberOfString lonQ) else none) with
    | some la, some lo =>
      .ok (la, lo, if city ≠ "" then city else "Unknown")
    | _, _ =>
      match geo with
      | none => .error (502, "Geocoding failed")
      | some g =>
        match num (geoField g.results.head? GeoResult.latitude),
            num (geoField g.results.head? GeoResult.longitude) with
        | some la, some lo =>
          .ok (.finite la, .finite lo, geoLocName g.results.head? city)
        | _, _ => .error (404, "City not found")

/-- The weather route's `GET`, with the two upstream fetches abstracted
as parameters (`none` = the fetch's `!res.ok` branch): trim the city,
resolve coordinates and name, then reshape the forecast (502 when that
fetch is not ok).  The `tz` parameter only alters the upstream URL, so
it is omitted.  Errors carry (status, error message). -/
def weatherGET (city latQ lonQ : String) (geo : Option GeoPayload)
    (forecast : Option ForecastPayload) :
    Except (Nat × String) WeatherOut :=
  match resolveCoords (jsTrim city) latQ lonQ geo with
  | .error e => .error e
  | .ok (la, lo, name) =>
    match forecast with
    | none => .error (502, "Forecast failed")
    | some f => .ok (buildWeatherOut la lo name f)

/-- ECMAScript `JSON.stringify` on a JS number, as applied by the
route's final `NextResponse.json(out)`: JSON has no NaN or infinities,
so a non-finite number serializes as `null`, a finite number as
itself. -/
def jsonNumber (n : JSNum) : Option ℚ :=
  match n with
  | .finite q => some q
  | _ => none

/-- The client-visible `location` after JSON serialization: the
coordinates, `number`-typed in memory, arrive as a finite number or
`null`. -/
structure LocationJSON where
  name : String
  latitude : Option ℚ
  longitude : Option ℚ
deriving DecidableEq, Repr

/-- The client-visible weather document: `WeatherOut` after
`NextResponse.json`/`JSON.stringify`.  All other numeric fields are
already `number | null` (finite or null) and serialize as
themselves. -/
structure WeatherJSON where
  location : LocationJSON
  currentTemperature : Option ℚ
  currentWeathercode : Option ℚ
  daily : List DailyOut
deriving DecidableEq, Repr

/-- `JSON.stringify` of the route's in-memory output object. -/
def serializeWeatherOut (out : WeatherOut) : WeatherJSON :=
  { location := ⟨out.location.name, jsonNumber out.location.latitude,
      jsonNumber out.location.longitude⟩
    currentTemperature := out.currentTemperature
    currentWeathercode := out.currentWeathercode
    daily := out.daily }

/-- The weather route as the client observes it: the in-memory result
of `GET` followed by the `NextResponse.json` serialization. -/
def weatherRouteJson (city latQ lonQ : String) (geo : Option GeoPayload)
    (forecast : Option ForecastPayload) :
    Except (Nat × String) WeatherJSON :=
  match weatherGET city latQ lonQ geo forecast with
  | .error e => .error e
  | .ok out => .ok (serializeWeatherOut out)

end WeatherProxy

section HadithProxy

/-- One element of the payload's `hadiths` array, as read by the route
(`h?.hadithnumber`, `h?.text`, `h?.grades?.[0]?.grade`,
`h?.reference`). -/
structure HadithEntry where
  hadithnumber : JSVal
  text : JSVal
  gradesFirstGrade : JSVal
  reference : JSVal
deriving DecidableEq, Repr

/-- The hadith payload fields the route reads. -/
structure HadithPayload where
  metadataName : JSVal
  hadiths : List HadithEntry
deriving DecidableEq, Repr

/-- What a single `fetch` of the hadith route can produce: a parsed
payload, an HTTP error status (`!r.ok`), or a thrown error. -/
inductive FetchOut
  | ok (j : HadithPayload)
  | httpErr (status : Nat)
  | thrown (msg : String)
deriving DecidableEq, Repr

/-- The route's JSON success output (`HadithOut` in the source). -/
structure HadithOutM where
  collection : String
  edition : String
  hadithnumber : JSNum
  text : String
  grade : JSVal
  reference : JSVal
deriving DecidableEq, Repr

/-- One step of the FNV-1a loop: `h ^= charCode; h = Math.imul(h,
16777619)`, on the unsigned 32-bit pattern. -/
def hashStep (h : Nat) (c : Char) : Nat :=
  ((Nat.xor h c.toNat) * 16777619) % 4294967296

/-- `hashToInt` from the hadith route: FNV-1a over the string's char
codes with `Math.imul` 32-bit wraparound, then `Math.abs` of the signed
32-bit reading.  (Char codes are modelled as code points; every string
hashed by this program is ASCII, where the two coincide.) -/
def hashToInt (s : String) : Nat :=
  let h := s.data.foldl hashStep 2166136261
  let signed : Int :=
    if h < 2147483648 then (h : Int) else (h : Int) - 4294967296
  signed.natAbs

/-- The 5 candidate hadith numbers
`((base + i*997) % 9000) + 1` for `i = 0..4`. -/
def hadithCandidates (edition seed : String) : List Nat :=
  let base := hashToInt (edition ++ ":" ++ seed)
  (List.range 5).map (fun i => (base + i * 997) % 9000 + 1)

/-- The four mirror URLs tried for one candidate number. -/
def hadithUrls (edition : String) (no : Nat) : List String :=
  [s!"https://cdn.jsdelivr.net/gh/fawazahmed0/hadith-api@1/editions/{edition}/{no}.min.json",
   s!"https://cdn.jsdelivr.net/gh/fawazahmed0/hadith-api@1/editions/{edition}/{no}.json",
   s!"https://raw.githubusercontent.com/fawazahmed0/hadith-api/1/editions/{edition}/{no}.min.json",
   s!"https://raw.githubusercontent.com/fawazahmed0/hadith-api/1/editions/{edition}/{no}.json"]

/-- `fetchJsonWithFallback`: try each URL in order, remembering the
last error; an HTTP error records `HTTP {status} for {url}`. -/
def fetchJsonWithFallback (net : String → FetchOut) :
    List String → Option String → Except String HadithPayload
  | [], lastErr => .error (lastErr.getD "Hadith fetch failed")
  | u :: rest, _ =>
    match net u with
    | .ok j => .ok j
    | .httpErr status =>
      fetchJsonWithFallback net rest (some s!"HTTP {status} for {u}")
    | .thrown msg => fetchJsonWithFallback net rest (some msg)

/-- The `for (const hadithNo of guesses)` loop of the hadith route's
`GET`: fetch the candidate (4 mirror URLs), demand a first hadith with
truthy text, and build the output; otherwise remember the error and try
the next candidate; when all five fail, a 502 with the last error's
message as `detail`. -/
def hadithTryCandidates (edition : String) (net : String → FetchOut) :
    List Nat → Option String → Except (Nat × String × String) HadithOutM
  | [], last => .error (502, "Hadith fetch failed", last.getD "")
  | no :: rest, _ =>
    match fetchJsonWithFallback net (hadithUrls edition no) none with
    | .error e => hadithTryCandidates edition net rest (some e)
    | .ok j =>
      let metaName :=
        if jsTruthy j.metadataName then jsToString j.metadataName
        else "Hadith"
      match j.hadiths.head? with
      | none =>
        hadithTryCandidates edition net rest
          (some "Hadith payload missing text")
      | some h =>
        if jsTruthy h.text then
          .ok { collection := metaName
                edition := edition
                hadithnumber :=
                  jsToNumber (jsCoalesce h.hadithnumber (.num (.finite no)))
                text := jsToString h.text
                grade := jsCoalesce h.gradesFirstGrade .jsNull
                reference := jsCoalesce h.reference .undefined }
        else
          hadithTryCandidates edition net rest
            (some "Hadith payload missing text")

/-- The hadith route's `GET`: default and trim the `edition` and `seed`
query parameters (`""` = absent; the seed defaults to the clock's
current ISO date, passed as `todayISO`), derive the candidate numbers
from the hash of `"{edition}:{seed}"`, and run the candidate loop over
the `fetch` oracle `net`. -/
def hadithGET (edition seed todayISO : String) (net : String → FetchOut) :
    Except (Nat × String × String) HadithOutM :=
  let ed := jsTrim (if edition = "" then "eng-bukhari" else edition)
  let sd := jsTrim (if seed = "" then todayISO else seed)
  hadithTryCandidates ed net (hadithCandidates ed sd) none

end HadithProxy

section LocalClock

/-- One element of `Intl.DateTimeFormat(...).formatToParts()`. -/
structure DTPart where
  type : String
  value : String
deriving DecidableEq, Repr

/-- The structured breakdown `nowInTimeZone` returns.  The numeric
fields are JS numbers (`Number(...)` of a part's text). -/
structure ClockOut where
  year : JSNum
  month : JSNum
  day : JSNum
  hour : JSNum
  minute : JSNum
  second : JSNum
  weekday : String
  timeZone : String
deriving DecidableEq, Repr

/-- The route's part lookup
`(type) => parts.find((p) => p.type === type)?.value ?? ""`. -/
def partGet (parts : List DTPart) (t : String) : String :=
  ((parts.find? (fun p => p.type == t)).map (fun p => p.value)).getD ""

/-- `nowInTimeZone` (TVClient.tsx) with the platform formatter
abstracted as the oracle `fmt` (the parts `Intl.DateTimeFormat` renders
for the current instant in a given timezone): choose
`tz || "Europe/Rome"` — the default applies only when `tz` is
`null`/empty, a nonempty string is passed to the formatter unchanged —
then read the seven fields out of the parts list. -/
def nowInTimeZone (fmt : String → List DTPart) (tz : Option String) :
    ClockOut :=
  let timeZone :=
    match tz with
    | none => "Europe/Rome"
    | some s => if s = "" then "Europe/Rome" else s
  let parts := fmt timeZone
  { year := jsNumberOfString (partGet parts "year")
    month := jsNumberOfString (partGet parts "month")
    day := jsNumberOfString (partGet parts "day")
    hour := jsNumberOfString (partGet parts "hour")
    minute := jsNumberOfString (partGet parts "minute")
    second := jsNumberOfString (partGet parts "second")
    weekday := partGet parts "weekday"
    timeZone := timeZone }

end LocalClock

section ScheduleLemmas

/-- For a nonnegative dividend the JS `%` (truncated remainder) agrees
with Euclidean `%`. -/
theorem tmod_eq_emod_of_nonneg (a : Int) (h : 0 ≤ a) :
    Int.tmod a 60 = a % 60 := by
  match a with
  | Int.ofNat m => rfl
  | Int.negSucc m => exact absurd h (by simp)

/-- Under the one-row-per-prayer invariant, when some row of `key`
qualifies, the loop body returns exactly the spec-side extraction (and
it is `some`). -/
theorem scanStep_of_qualifies (todayRows : List PrayerRow) (minutesNow : Int)
    (hU : ∀ r₁ ∈ todayRows, ∀ r₂ ∈ todayRows, r₁.prayer = r₂.prayer → r₁ = r₂)
    (key : PrayerKey)
    (hq : todayRows.any (rowQualifies minutesNow key) = true) :
    ∃ m, nextPrayerScanStep todayRows minutesNow key = some ⟨key, m⟩ ∧
      nextPrayerExtract todayRows key = some ⟨key, m⟩ := by
  obtain ⟨r, hr, hqr⟩ := List.any_eq_true.mp hq
  unfold rowQualifies at hqr
  rw [Bool.and_eq_true] at hqr
  obtain ⟨hpr, htr⟩ := hqr
  rw [beq_iff_eq] at hpr
  cases hpm : timeToMinutes r.jamaat_time with
  | none => rw [hpm] at htr; exact absurd htr (by simp)
  | some m =>
    rw [hpm] at htr
    have hge : m ≥ minutesNow := by simpa using htr
    have hfind : ∃ row, todayRows.find? (fun r => r.prayer == key) = some row := by
      have : (todayRows.find? (fun r => r.prayer == key)).isSome := by
        rw [List.find?_isSome]
        exact ⟨r, hr, by simp [hpr]⟩
      exact Option.isSome_iff_exists.mp this
    obtain ⟨row, hrow⟩ := hfind
    have hrowmem : row ∈ todayRows := List.mem_of_find?_eq_some hrow
    have hrowk : row.prayer = key := by
      have h := List.find?_some hrow
      simp only [beq_iff_eq] at h
      exact h
    have hroweq : row = r := hU row hrowmem r hr (hrowk.trans hpr.symm)
    refine ⟨m, ?_, ?_⟩
    · unfold nextPrayerScanStep
      rw [hrow, hroweq]
      simp [hpm, hge]
    · unfold nextPrayerExtract
      rw [hrow, hroweq]
      simp [hpm]

/-- When no row of `key` qualifies, the loop body skips the key. -/
theorem scanStep_of_not_qualifies (todayRows : List PrayerRow)
    (minutesNow : Int) (key : PrayerKey)
    (hq : todayRows.any (rowQualifies minutesNow key) = false) :
    nextPrayerScanStep todayRows minutesNow key = none := by
  unfold nextPrayerScanStep
  cases hrow : todayRows.find? (fun r => r.prayer == key) with
  | none => rfl
  | some row =>
    have hrowmem : row ∈ todayRows := List.mem_of_find?_eq_some hrow
    have hrowk : (row.prayer == key) = true := by
      have h := List.find?_some hrow
      simpa using h
    cases hpm : timeToMinutes row.jamaat_time with
    | none => simp [hpm]
    | some m =>
      by_cases hge : m ≥ minutesNow
      · exfalso
        have hfalse := List.any_eq_false.mp hq row hrowmem
        apply hfalse
        unfold rowQualifies
        rw [hpm, Bool.and_eq_true, hrowk]
        exact ⟨rfl, by simpa using hge⟩
      · simp [hpm, hge]

/-- The canonical-order scan equals "first qualifying prayer, then
extract", for any list of keys, under the one-row-per-prayer
invariant. -/
theorem findSome_scan_eq (todayRows : List PrayerRow) (minutesNow : Int)
    (hU : ∀ r₁ ∈ todayRows, ∀ r₂ ∈ todayRows, r₁.prayer = r₂.prayer → r₁ = r₂) :
    ∀ keys : List PrayerKey,
      keys.findSome? (nextPrayerScanStep todayRows minutesNow) =
        (keys.find? (fun key => todayRows.any (rowQualifies minutesNow key))).bind
          (nextPrayerExtract todayRows)
  | [] => rfl
  | k :: ks => by
    cases hq : todayRows.any (rowQualifies minutesNow k) with
    | true =>
      obtain ⟨m, hstep, hext⟩ := scanStep_of_qualifies todayRows minutesNow hU k hq
      simp only [List.findSome?_cons, List.find?, hstep, hq, hext,
        Option.some_bind]
    | false =>
      simp only [List.findSome?_cons, List.find?, hq,
        scanStep_of_not_qualifies todayRows minutesNow k hq]
      exact findSome_scan_eq todayRows minutesNow hU ks

/-- The countdown formatting branch of the implementation (branch on
`Math.floor(total/60) <= 0`) agrees with the spec's branch on
`total < 60` for nonnegative totals. -/
theorem countdown_format_eq (t hh mm : Int) (ht : 0 ≤ t)
    (hhh : hh = Int.fdiv t 60) (hmm : mm = Int.tmod t 60) :
    (if hh ≤ 0 then s!"{mm} min" else s!"{hh}h {mm}m") =
    (if t < 60 then s!"{t} min" else s!"{hh}h {mm}m") := by
  have hfd : Int.fdiv t 60 = t / 60 := Int.fdiv_eq_ediv t (by norm_num)
  by_cases h60 : t < 60
  · rw [if_pos h60, if_pos (show hh ≤ 0 by rw [hhh, hfd]; omega)]
    have hm : mm = t := by
      rw [hmm, tmod_eq_emod_of_nonneg t ht]; omega
    rw [hm]
  · rw [if_neg h60,
      if_neg (show ¬hh ≤ 0 by rw [hhh, hfd]; omega)]

end ScheduleLemmas

section ScheduleClaims

/-- C1: for every list of prayer rows for the current local date and
every current local time, `computeNextPrayer` (TVClient.tsx) scans the
five prayer names in the fixed order fajr, dhuhr, asr, maghrib, isha
and returns the first one that has a row whose jamaat-time in minutes
since midnight is `≥` the current local minutes-since-midnight; if
every prayer today has passed, it returns fajr's row with today's fajr
minute value; and if no fajr row exists it returns nothing — stated as
equality with `nextPrayerSpec`, the transcription of the spec's words,
under the data invariant of one row per prayer per date. -/
theorem computeNextPrayer_matches_spec (prayers : List PrayerRow)
    (today : String) (minutesNow : Int)
    (hU : OneRowPerPrayer prayers today) :
    computeNextPrayer prayers today minutesNow =
      nextPrayerSpec prayers today minutesNow := by
  have hU' : ∀ r₁ ∈ prayers.filter (fun p => p.date == today),
      ∀ r₂ ∈ prayers.filter (fun p => p.date == today),
      r₁.prayer = r₂.prayer → r₁ = r₂ := by
    intro r₁ h₁ r₂ h₂ hp
    rw [List.mem_filter] at h₁ h₂
    exact hU r₁ h₁.1 r₂ h₂.1 (by simpa using h₁.2) (by simpa using h₂.2) hp
  simp only [computeNextPrayer, nextPrayerSpec]
  rw [findSome_scan_eq _ _ hU' PRAYER_ORDER]
  cases hfk : PRAYER_ORDER.find?
      (fun key => (prayers.filter (fun p => p.date == today)).any
        (rowQualifies minutesNow key)) with
  | none =>
    simp only [Option.none_bind]
    unfold nextPrayerExtract
    cases hff : (prayers.filter (fun p => p.date == today)).find?
        (fun r => r.prayer == PrayerKey.fajr) with
    | none => simp
    | some first =>
      cases hpm : timeToMinutes first.jamaat_time with
      | none => simp [hpm]
      | some m => simp [hpm]
  | some key =>
    have hq : (prayers.filter (fun p => p.date == today)).any
        (rowQualifies minutesNow key) = true := by
      have h := List.find?_some hfk
      simpa using h
    obtain ⟨m, _, hext⟩ :=
      scanStep_of_qualifies _ minutesNow hU' key hq
    simp only [Option.some_bind, hext]

/-- Witness for C1: a concrete two-row day satisfying the
one-row-per-prayer invariant, on which the implementation and the
spec-side function agree (and the next prayer at 14:00 is asr at its
jamaat minute 980). -/
theorem computeNextPrayer_matches_spec_witness :
    OneRowPerPrayer
        [⟨.fajr, "05:00:00", "05:20:00", "2025-06-02"⟩,
         ⟨.asr, "16:00:00", "16:20:00", "2025-06-02"⟩] "2025-06-02" ∧
      computeNextPrayer
          [⟨.fajr, "05:00:00", "05:20:00", "2025-06-02"⟩,
           ⟨.asr, "16:00:00", "16:20:00", "2025-06-02"⟩] "2025-06-02" 840 =
        nextPrayerSpec
          [⟨.fajr, "05:00:00", "05:20:00", "2025-06-02"⟩,
           ⟨.asr, "16:00:00", "16:20:00", "2025-06-02"⟩] "2025-06-02" 840 ∧
      computeNextPrayer
          [⟨.fajr, "05:00:00", "05:20:00", "2025-06-02"⟩,
           ⟨.asr, "16:00:00", "16:20:00", "2025-06-02"⟩] "2025-06-02" 840 =
        some ⟨.asr, 980⟩ :=
  ⟨by decide,
   computeNextPrayer_matches_spec _ _ 840 (by decide),
   by decide⟩

/-- Counterexample for C1 as a statement about the Aurora variant's
`getNextPrayer`, which the claim's sources also name: at 21:00, with a
fajr row present for today and every prayer passed, it returns nothing
instead of falling back to fajr's row (the TVClient.tsx variant does
fall back on the same input). -/
theorem getNextPrayer_no_fajr_fallback :
    getNextPrayer
        [⟨.fajr, "05:00:00", "05:20:00", "2025-06-02"⟩] "2025-06-02" 1260 =
      none ∧
    computeNextPrayer
        [⟨.fajr, "05:00:00", "05:20:00", "2025-06-02"⟩] "2025-06-02" 1260 =
      some ⟨.fajr, 320⟩ := by
  constructor <;> decide

/-- C2 (amended to the TVClient.tsx countdown): for every next-prayer
result and every current local minute within the day, the countdown is
`next.mins` minus the current local minutes-since-midnight, plus 1440
when that difference is negative, formatted `"{minutes} min"` when
under one hour and `"{hours}h {minutes}m"` otherwise — stated as
equality with `countdownSpec`, the transcription of the spec's
words. -/
theorem countdownTV_matches_spec (nx : NextPrayer) (nowM : Int)
    (hm : 0 ≤ nx.mins) (h₀ : 0 ≤ nowM) (h₁ : nowM < 1440) :
    countdownTV (some nx) nowM = countdownSpec nx nowM := by
  simp only [countdownTV, countdownSpec]
  by_cases hneg : nx.mins - nowM < 0
  · rw [if_pos hneg, if_pos hneg]
    have h2460 : nx.mins - nowM + 24 * 60 = nx.mins - nowM + 1440 := by
      norm_num
    rw [h2460]
    exact countdown_format_eq _ _ _ (by omega) rfl rfl
  · rw [if_neg hneg, if_neg hneg]
    exact countdown_format_eq _ _ _ (by omega) rfl rfl

/-- Witness for C2, at the spec's own example: fajr jamaat at 05:00
(minute 300) and current local time 21:00 (minute 1260) give a
480-minute countdown displayed "8h 0m". -/
theorem countdownTV_matches_spec_witness :
    (0 : Int) ≤ 300 ∧ (0 : Int) ≤ 1260 ∧ (1260 : Int) < 1440 ∧
      countdownTV (some ⟨.fajr, 300⟩) 1260 = "8h 0m" :=
  ⟨by decide, by decide, by decide,
   (countdownTV_matches_spec ⟨.fajr, 300⟩ 1260 (by decide) (by decide)
      (by decide)).trans (by decide)⟩

/-- Counterexample for C2 as a statement about the Aurora variant's
`formatCountdown`, which the claim's sources also name: at the claim's
own example total of 480 minutes it renders "8h", not "8h 0m" (whole
hours drop the minute part). -/
theorem formatCountdown_whole_hour :
    formatCountdown 480 = "8h" ∧ formatCountdown 480 ≠ "8h 0m" := by
  constructor <;> decide

/-- C9: the next-prayer computation depends only on rows dated the
current local date — `computeNextPrayer` is unchanged by restricting
its row list to the rows whose date equals today's date key, so rows
with any other date never affect the result. -/
theorem computeNextPrayer_date_scoped (prayers : List PrayerRow)
    (today : String) (minutesNow : Int) :
    computeNextPrayer prayers today minutesNow =
      computeNextPrayer (prayers.filter (fun p => p.date == today))
        today minutesNow := by
  have hff : (prayers.filter (fun p => p.date == today)).filter
        (fun p => p.date == today) =
      prayers.filter (fun p => p.date == today) := by
    rw [List.filter_filter]
    simp only [Bool.and_self]
  simp only [computeNextPrayer, hff]

end ScheduleClaims

section ServiceWorkerClaims

/-- C3: for a request already present in the app-shell cache,
`cacheFirst` returns the cached response, issues zero network fetches
and leaves the caches unchanged (no revalidation); on a cache miss it
fetches from the network, stores a clone in the app-shell cache, and
returns the network response (one fetch). -/
theorem cacheFirst_spec (st : SWCaches) (net : String → Option Resp)
    (url : String) :
    (∀ c, cacheMatch st.shell url = some c →
      cacheFirst st net url = (some (c, st), 0)) ∧
    (cachesMatch st url = none → ∀ fresh, net url = some fresh →
      cacheFirst st net url =
        (some (fresh, ⟨cachePut st.shell url fresh, st.api⟩), 1)) := by
  constructor
  · intro c hc
    have hm : cachesMatch st url = some c := by
      unfold cachesMatch
      rw [hc]
    unfold cacheFirst
    rw [hm]
  · intro hm fresh hf
    unfold cacheFirst
    rw [hm, hf]

/-- Witness for C3: a concrete shell cache holding the root document;
`cacheFirst` serves it with a fetch count of zero and an unchanged
state even though the network oracle would fail. -/
theorem cacheFirst_spec_witness :
    cacheMatch (SWCaches.mk [("/", ⟨200, "shell", []⟩)] []).shell "/" =
        some ⟨200, "shell", []⟩ ∧
      cacheFirst (SWCaches.mk [("/", ⟨200, "shell", []⟩)] [])
          (fun _ => none) "/" =
        (some (⟨200, "shell", []⟩, SWCaches.mk [("/", ⟨200, "shell", []⟩)] []),
          0) :=
  ⟨by decide, (cacheFirst_spec _ _ _).1 _ (by decide)⟩

/-- C4: `networkFirst` returns the network response and stores a clone
in the API cache whenever the fetch resolves — with any HTTP status,
4xx/5xx included, since `fresh` ranges over every response; when the
fetch throws it returns the cached response for the request when one
exists, and otherwise the synthesized 503 whose JSON body is the
stringified `\x7b error: "Offline and no cache" \x7d`. -/
theorem networkFirst_spec (st : SWCaches) (net : String → Option Resp)
    (url : String) :
    (∀ fresh, net url = some fresh →
      networkFirst st net url =
        ((fresh, ⟨st.shell, cachePut st.api url fresh⟩), 1)) ∧
    (net url = none → ∀ c, cachesMatch st url = some c →
      networkFirst st net url = ((c, st), 1)) ∧
    (net url = none → cachesMatch st url = none →
      networkFirst st net url = ((offlineResponse, st), 1) ∧
        offlineResponse.status = 503 ∧
        offlineResponse.body = "\x7b\"error\":\"Offline and no cache\"\x7d") := by
  refine ⟨?_, ?_, ?_⟩
  · intro fresh hf
    unfold networkFirst
    rw [hf]
  · intro hn c hc
    unfold networkFirst
    rw [hn, hc]
  · intro hn hc
    refine ⟨?_, rfl, rfl⟩
    unfold networkFirst
    rw [hn, hc]

/-- Witness for C4: a network throw with a previously cached API
response serves the cached response; include the synthesized-503 case
on an empty cache. -/
theorem networkFirst_spec_witness :
    cachesMatch (SWCaches.mk [] [("/api/x", ⟨200, "data", []⟩)]) "/api/x" =
        some ⟨200, "data", []⟩ ∧
      networkFirst (SWCaches.mk [] [("/api/x", ⟨200, "data", []⟩)])
          (fun _ => none) "/api/x" =
        ((⟨200, "data", []⟩, SWCaches.mk [] [("/api/x", ⟨200, "data", []⟩)]),
          1) ∧
      networkFirst (SWCaches.mk [] []) (fun _ => none) "/api/x" =
        ((offlineResponse, SWCaches.mk [] []), 1) :=
  ⟨by decide,
   (networkFirst_spec _ _ _).2.1 rfl _ (by decide),
   ((networkFirst_spec _ _ _).2.2 rfl (by decide)).1⟩

end ServiceWorkerClaims

section WeatherLemmas

/-- The validator `num` forwards exactly the finite upstream numbers:
anything else — NaN, infinities, strings, booleans, null, undefined —
becomes `null`. -/
theorem num_some_iff (v : JSVal) (q : ℚ) :
    num v = some q ↔ v = JSVal.num (JSNum.finite q) := by
  cases v with
  | undefined => simp [num]
  | jsNull => simp [num]
  | num n => cases n <;> simp [num]
  | str s => simp [num]
  | boolV b => simp [num]

/-- Reading a per-day array through `num` with the `undefined`
out-of-range default forwards exactly an in-range finite number. -/
theorem num_getD_some_iff (arr : List JSVal) (i : Nat) (q : ℚ) :
    num ((arr.get? i).getD .undefined) = some q ↔
      arr.get? i = some (JSVal.num (JSNum.finite q)) := by
  cases h : arr.get? i with
  | none => simp [num]
  | some v => simp [num_some_iff]

/-- Inversion of a successful weather response: the coordinates and
name resolved, the forecast fetch succeeded, and the output is the
reshaped forecast. -/
theorem weatherGET_ok_inv (city latQ lonQ : String) (geo : Option GeoPayload)
    (fc : Option ForecastPayload) (out : WeatherOut)
    (h : weatherGET city latQ lonQ geo fc = .ok out) :
    ∃ la lo name fp, fc = some fp ∧
      resolveCoords (jsTrim city) latQ lonQ geo = .ok (la, lo, name) ∧
      out = buildWeatherOut la lo name fp := by
  unfold weatherGET at h
  cases hres : resolveCoords (jsTrim city) latQ lonQ geo with
  | error e => rw [hres] at h; exact absurd h (by simp)
  | ok triple =>
    obtain ⟨la, lo, name⟩ := triple
    rw [hres] at h
    cases fc with
    | none => simp at h
    | some f =>
      simp only [Except.ok.injEq] at h
      exact ⟨la, lo, name, f, rfl, rfl, h.symm⟩

/-- When the query does not supply both coordinates, the resolved
coordinates come from the geocoder through `num`, hence are finite. -/
theorem resolveCoords_geo_finite (city latQ lonQ : String)
    (geo : Option GeoPayload) (la lo : JSNum) (name : String)
    (hq : latQ = "" ∨ lonQ = "")
    (h : resolveCoords city latQ lonQ geo = .ok (la, lo, name)) :
    (∃ q, la = JSNum.finite q) ∧ ∃ q, lo = JSNum.finite q := by
  unfold resolveCoords at h
  split at h
  · exact absurd h (by simp)
  · split at h
    · rename_i la' lo' hx1 hx2
      rcases hq with hl | hl
      · rw [if_neg (by simp [hl])] at hx1
        exact absurd hx1 (by simp)
      · rw [if_neg (by simp [hl])] at hx2
        exact absurd hx2 (by simp)
    · split at h
      · exact absurd h (by simp)
      · split at h
        · rename_i qa qb hga hgo
          simp only [Except.ok.injEq, Prod.mk.injEq] at h
          obtain ⟨h1, h2, _⟩ := h
          exact ⟨⟨qa, h1.symm⟩, ⟨qb, h2.symm⟩⟩
        · exact absurd h (by simp)

end WeatherLemmas

section WeatherClaims

/-- Before serialization: coordinates supplied as query parameters are
`Number()` coercions that bypass the validator `num`, so with
`lat=abc&lon=1` the route's in-memory output object holds a NaN
latitude.  It is the `NextResponse.json` serialization boundary (see
`weather_json_validated`) that turns this NaN into the `null` the
client receives. -/
theorem weatherGET_nan_latitude :
    weatherGET "" "abc" "1" none
        (some ⟨.undefined, .undefined, [], [], [], [], []⟩) =
      Except.ok ⟨⟨"Unknown", .nan, .finite 1⟩, none, none, []⟩ := by
  decide

/-- C5: for every upstream payload and every query input, every
numeric field in the weather proxy's JSON output is either a finite
number or null — never NaN or a non-numeric value.  The current (and,
by C10, daily) fields pass through the validator `num`, which forwards
exactly finite upstream numbers; the coordinates — the one pair of
numbers that can be non-finite in memory, when supplied as query
parameters — cross the `JSON.stringify` boundary of
`NextResponse.json`, which serializes exactly the finite numbers and
sends NaN and the infinities to null; and coordinates resolved through
geocoding reach the client as present finite numbers. -/
theorem weather_json_validated :
    (∀ n q, jsonNumber n = some q ↔ n = JSNum.finite q) ∧
    (∀ v q, num v = some q ↔ v = JSVal.num (JSNum.finite q)) ∧
    (∀ city latQ lonQ geo fp jout,
      weatherRouteJson city latQ lonQ geo (some fp) = Except.ok jout →
      ∃ out, weatherGET city latQ lonQ geo (some fp) = Except.ok out ∧
        jout.location.latitude = jsonNumber out.location.latitude ∧
        jout.location.longitude = jsonNumber out.location.longitude ∧
        jout.currentTemperature = num fp.current_temperature ∧
        jout.currentWeathercode = num fp.current_weathercode ∧
        jout.daily = out.daily) ∧
    (∀ city lonQ geo fp jout,
      weatherRouteJson city "" lonQ geo (some fp) = Except.ok jout →
      (∃ q, jout.location.latitude = some q) ∧
      ∃ q, jout.location.longitude = some q) := by
  refine ⟨?_, num_some_iff, ?_, ?_⟩
  · intro n q
    cases n <;> simp [jsonNumber]
  · intro city latQ lonQ geo fp jout h
    unfold weatherRouteJson at h
    cases hres : weatherGET city latQ lonQ geo (some fp) with
    | error e => rw [hres] at h; exact absurd h (by simp)
    | ok out =>
      rw [hres] at h
      simp only [Except.ok.injEq] at h
      subst h
      obtain ⟨la, lo, name, fp', hfc, _, hout⟩ :=
        weatherGET_ok_inv _ _ _ _ _ _ hres
      have hfp : fp = fp' := by simpa using hfc
      subst hfp
      subst hout
      exact ⟨_, rfl, rfl, rfl, rfl, rfl, rfl⟩
  · intro city lonQ geo fp jout h
    unfold weatherRouteJson at h
    cases hres : weatherGET city "" lonQ geo (some fp) with
    | error e => rw [hres] at h; exact absurd h (by simp)
    | ok out =>
      rw [hres] at h
      simp only [Except.ok.injEq] at h
      subst h
      obtain ⟨la, lo, name, fp', hfc, hresolve, hout⟩ :=
        weatherGET_ok_inv _ _ _ _ _ _ hres
      subst hout
      obtain ⟨⟨qa, hqa⟩, ⟨qb, hqb⟩⟩ :=
        resolveCoords_geo_finite _ _ _ _ _ _ _ (Or.inl rfl) hresolve
      exact ⟨⟨qa, by simp [serializeWeatherOut, buildWeatherOut,
          jsonNumber, hqa]⟩,
        ⟨qb, by simp [serializeWeatherOut, buildWeatherOut,
          jsonNumber, hqb]⟩⟩

/-- Witness for C5: at `lat=abc&lon=1` — where the in-memory latitude
is NaN (`weatherGET_nan_latitude`) — the client-visible JSON carries
latitude null and longitude 1; a geocoded request reaches the client
with present finite coordinates; and the serialization maps NaN to
null. -/
theorem weather_json_validated_witness :
    weatherRouteJson "" "abc" "1" none
        (some ⟨.undefined, .undefined, [], [], [], [], []⟩) =
      Except.ok ⟨⟨"Unknown", none, some 1⟩, none, none, []⟩ ∧
    (∃ out, weatherGET "" "abc" "1" none
          (some ⟨.undefined, .undefined, [], [], [], [], []⟩) =
        Except.ok out ∧
      (⟨⟨"Unknown", none, some 1⟩, none, none, []⟩ :
          WeatherJSON).location.latitude =
        jsonNumber out.location.latitude ∧
      (⟨⟨"Unknown", none, some 1⟩, none, none, []⟩ :
          WeatherJSON).location.longitude =
        jsonNumber out.location.longitude ∧
      (⟨⟨"Unknown", none, some 1⟩, none, none, []⟩ :
          WeatherJSON).currentTemperature =
        num JSVal.undefined ∧
      (⟨⟨"Unknown", none, some 1⟩, none, none, []⟩ :
          WeatherJSON).currentWeathercode =
        num JSVal.undefined ∧
      (⟨⟨"Unknown", none, some 1⟩, none, none, []⟩ :
          WeatherJSON).daily = out.daily) ∧
    ((∃ q, (⟨⟨"Rome, Lazio, Italy", some 41, some 12⟩, some 21, none,
          []⟩ : WeatherJSON).location.latitude = some q) ∧
      ∃ q, (⟨⟨"Rome, Lazio, Italy", some 41, some 12⟩, some 21, none,
          []⟩ : WeatherJSON).location.longitude = some q) ∧
    jsonNumber JSNum.nan = none :=
  ⟨by decide,
   weather_json_validated.2.2.1 "" "abc" "1" none
     ⟨.undefined, .undefined, [], [], [], [], []⟩
     ⟨⟨"Unknown", none, some 1⟩, none, none, []⟩ (by decide),
   weather_json_validated.2.2.2 "Rome" "" (some ⟨[⟨.str "Rome",
       .str "Lazio", .str "Italy", .num (.finite 41),
       .num (.finite 12)⟩]⟩)
     ⟨.num (.finite 21), .num .nan, [], [], [], [], []⟩
     ⟨⟨"Rome, Lazio, Italy", some 41, some 12⟩, some 21, none, []⟩
     (by decide),
   by decide⟩

/-- C10: for every upstream forecast payload, the daily output has
exactly one entry per element of the upstream `daily.time` array, in
order, carrying that element as its date, and each per-day numeric
field holds a value exactly when the corresponding upstream array has a
finite number at that index — so a shorter array or a non-numeric entry
yields null. -/
theorem weather_daily_mapping (city latQ lonQ : String)
    (geo : Option GeoPayload) (fp : ForecastPayload) (out : WeatherOut)
    (h : weatherGET city latQ lonQ geo (some fp) = Except.ok out) :
    out.daily.length = fp.daily_time.length ∧
    ∀ i, ∀ hi : i < out.daily.length, ∀ hi' : i < fp.daily_time.length,
      (out.daily.get ⟨i, hi⟩).date = fp.daily_time.get ⟨i, hi'⟩ ∧
      (∀ q, (out.daily.get ⟨i, hi⟩).tmax = some q ↔
        fp.daily_tmax.get? i = some (JSVal.num (JSNum.finite q))) ∧
      (∀ q, (out.daily.get ⟨i, hi⟩).tmin = some q ↔
        fp.daily_tmin.get? i = some (JSVal.num (JSNum.finite q))) ∧
      (∀ q, (out.daily.get ⟨i, hi⟩).precipProbMax = some q ↔
        fp.daily_precip.get? i = some (JSVal.num (JSNum.finite q))) ∧
      (∀ q, (out.daily.get ⟨i, hi⟩).weathercode = some q ↔
        fp.daily_weathercode.get? i = some (JSVal.num (JSNum.finite q))) := by
  obtain ⟨la, lo, name, fp', hfc, _, hout⟩ := weatherGET_ok_inv _ _ _ _ _ _ h
  have hfp : fp = fp' := by simpa using hfc
  subst hfp
  subst hout
  constructor
  · simp [buildWeatherOut]
  · intro i hi hi'
    refine ⟨?_, ?_, ?_, ?_, ?_⟩
    · simp [buildWeatherOut, List.getElem_mapIdx]
    all_goals
      intro q
      simp only [buildWeatherOut, List.get_eq_getElem, List.getElem_mapIdx]
      exact num_getD_some_iff _ _ _

/-- Witness for C10: two upstream days with short and non-numeric
per-day arrays produce two entries whose missing fields are null. -/
theorem weather_daily_mapping_witness :
    weatherGET "" "1" "2" none
        (some ⟨.undefined, .undefined, ["2025-06-02", "2025-06-03"],
          [.num (.finite 21)], [.str "x", .num (.finite 9)], [],
          [.num .nan, .num (.finite 3)]⟩) =
      Except.ok ⟨⟨"Unknown", .finite 1, .finite 2⟩, none, none,
        [⟨"2025-06-02", some 21, none, none, none⟩,
         ⟨"2025-06-03", none, some 9, none, some 3⟩]⟩ ∧
    (⟨⟨"Unknown", .finite 1, .finite 2⟩, none, none,
        [⟨"2025-06-02", some 21, none, none, none⟩,
         ⟨"2025-06-03", none, some 9, none, some 3⟩]⟩ :
      WeatherOut).daily.length =
      (["2025-06-02", "2025-06-03"] : List String).length :=
  ⟨by decide,
   (weather_daily_mapping "" "1" "2" none
      ⟨.undefined, .undefined, ["2025-06-02", "2025-06-03"],
        [.num (.finite 21)], [.str "x", .num (.finite 9)], [],
        [.num .nan, .num (.finite 3)]⟩ _ (by decide)).1⟩

end WeatherClaims

section HadithClaims

/-- C6: the hadith proxy is deterministic in (edition, seed): when the
seed is supplied the result does not depend on the clock's current
date, so two invocations with the same edition and seed strings compute
the same hash base, attempt the identical sequence of candidate numbers
— always 5 of them — and, with the same upstream behavior, return the
same output (in particular the same hadithnumber). -/
theorem hadithGET_deterministic (edition seed : String) (hs : seed ≠ "")
    (d₁ d₂ : String) (net : String → FetchOut) :
    hadithGET edition seed d₁ net = hadithGET edition seed d₂ net ∧
    ∀ ed sd : String, (hadithCandidates ed sd).length = 5 := by
  constructor
  · simp only [hadithGET, if_neg hs]
  · intro ed sd
    simp [hadithCandidates]

/-- Witness for C6: a concrete edition/seed, two different clock dates
and an upstream succeeding on the first candidate with hadith number
42 — the two invocations agree, and return number 42. -/
theorem hadithGET_deterministic_witness :
    ("2025-06-02" : String) ≠ "" ∧
    hadithGET "eng-bukhari" "2025-06-02" "2025-01-01"
        (fun _ => .ok ⟨.str "Sahih Bukhari",
          [⟨.num (.finite 42), .str "Some text", .undefined, .undefined⟩]⟩) =
      hadithGET "eng-bukhari" "2025-06-02" "2099-12-31"
        (fun _ => .ok ⟨.str "Sahih Bukhari",
          [⟨.num (.finite 42), .str "Some text", .undefined, .undefined⟩]⟩) ∧
    hadithGET "eng-bukhari" "2025-06-02" "2025-01-01"
        (fun _ => .ok ⟨.str "Sahih Bukhari",
          [⟨.num (.finite 42), .str "Some text", .undefined, .undefined⟩]⟩) =
      .ok ⟨"Sahih Bukhari", "eng-bukhari", .finite 42, "Some text",
        .jsNull, .undefined⟩ :=
  ⟨by decide,
   (hadithGET_deterministic "eng-bukhari" "2025-06-02" (by decide)
      "2025-01-01" "2099-12-31" _).1,
   by decide⟩

end HadithClaims

section MalformedTimeClaims

/-- C7 (amended to the scans that null-check, TVClient.tsx and the
Aurora variant): a malformed time string resolves to no value and its
row is skipped, and the scan never places a NaN minute value in its
result — whenever `computeNextPrayer` returns a minute value, that
value is the successfully parsed jamaat time of an actual row of the
current date.  The counterexample shows the legacy board variant's
fajr fallback violates this. -/
theorem computeNextPrayer_skips_malformed (prayers : List PrayerRow)
    (today : String) (minutesNow : Int) (k : PrayerKey) (m : Int)
    (h : computeNextPrayer prayers today minutesNow = some ⟨k, m⟩) :
    ∃ r ∈ prayers, r.date = today ∧
      timeToMinutes r.jamaat_time = some m := by
  simp only [computeNextPrayer] at h
  cases hscan : List.findSome?
      (nextPrayerScanStep (prayers.filter (fun p => p.date == today))
        minutesNow) PRAYER_ORDER with
  | some res =>
    rw [hscan] at h
    dsimp only at h
    simp only [Option.some.injEq] at h
    subst h
    obtain ⟨key, _, hstep⟩ := List.exists_of_findSome?_eq_some hscan
    unfold nextPrayerScanStep at hstep
    split at hstep
    · exact absurd hstep (by simp)
    · rename_i row hrow
      split at hstep
      · exact absurd hstep (by simp)
      · rename_i mins hpm
        split at hstep
        · simp only [Option.some.injEq, NextPrayer.mk.injEq] at hstep
          have hrmem := List.mem_of_find?_eq_some hrow
          rw [List.mem_filter] at hrmem
          refine ⟨row, hrmem.1, by simpa using hrmem.2, ?_⟩
          rw [hpm, hstep.2]
        · exact absurd hstep (by simp)
  | none =>
    rw [hscan] at h
    dsimp only at h
    split at h
    · exact absurd h (by simp)
    · rename_i first hfirst
      split at h
      · exact absurd h (by simp)
      · rename_i mins hpm
        simp only [Option.some.injEq, NextPrayer.mk.injEq] at h
        have hfmem := List.mem_of_find?_eq_some hfirst
        rw [List.mem_filter] at hfmem
        refine ⟨first, hfmem.1, by simpa using hfmem.2, ?_⟩
        rw [hpm, h.2]

/-- Witness for C7: a malformed dhuhr jamaat time ("13" has no minutes
field) resolves to no value and is skipped, the scan proceeds to asr,
and the returned minute value 980 is the parsed time of an actual
row. -/
theorem computeNextPrayer_skips_malformed_witness :
    timeToMinutes "13" = none ∧
    computeNextPrayer
        [⟨.dhuhr, "12:45:00", "13", "2025-06-02"⟩,
         ⟨.asr, "16:00:00", "16:20:00", "2025-06-02"⟩] "2025-06-02" 600 =
      some ⟨.asr, 980⟩ ∧
    ∃ r ∈ [(⟨.dhuhr, "12:45:00", "13", "2025-06-02"⟩ : PrayerRow),
        ⟨.asr, "16:00:00", "16:20:00", "2025-06-02"⟩],
      r.date = "2025-06-02" ∧ timeToMinutes r.jamaat_time = some 980 :=
  ⟨by decide, by decide,
   computeNextPrayer_skips_malformed
     [⟨.dhuhr, "12:45:00", "13", "2025-06-02"⟩,
      ⟨.asr, "16:00:00", "16:20:00", "2025-06-02"⟩]
     "2025-06-02" 600 .asr 980 (by decide)⟩

/-- Counterexample for C7: the legacy board variant (bundled with the
route sources) parses without a finiteness check; with a lone fajr row
whose jamaat time is the malformed "13", the scan skips it (NaN
comparisons are false) but the fajr fallback returns the row with a
NaN minute value (`none` in the embedding) in its result. -/
theorem computeNextPrayerLegacy_nan_fallback :
    computeNextPrayerLegacy
        [⟨.fajr, "05:00:00", "13", "2025-06-02"⟩] "2025-06-02" 600 =
      some (.fajr, none) ∧
    timeToMinutesLegacy "13" = none := by
  constructor <;> decide

end MalformedTimeClaims

section LocalClockClaims

/-- C8 (amended): `nowInTimeZone` returns the structured breakdown
{year, month, day, hour, minute, second, weekday} read from the
platform formatter's parts for the chosen timezone; the default
"Europe/Rome" applies when the argument is absent (null or empty),
while a nonempty — even invalid — timezone string is passed to the
formatter unchanged rather than replaced by the default. -/
theorem nowInTimeZone_breakdown (fmt : String → List DTPart) (s : String)
    (hs : s ≠ "") :
    (nowInTimeZone fmt none).timeZone = "Europe/Rome" ∧
    (nowInTimeZone fmt (some "")).timeZone = "Europe/Rome" ∧
    nowInTimeZone fmt (some s) =
      ⟨jsNumberOfString (partGet (fmt s) "year"),
       jsNumberOfString (partGet (fmt s) "month"),
       jsNumberOfString (partGet (fmt s) "day"),
       jsNumberOfString (partGet (fmt s) "hour"),
       jsNumberOfString (partGet (fmt s) "minute"),
       jsNumberOfString (partGet (fmt s) "second"),
       partGet (fmt s) "weekday", s⟩ := by
  refine ⟨rfl, rfl, ?_⟩
  simp only [nowInTimeZone, if_neg hs]

/-- Witness for C8: a concrete formatter oracle for Asia/Tokyo yields
the numeric breakdown of its parts. -/
theorem nowInTimeZone_breakdown_witness :
    ("Asia/Tokyo" : String) ≠ "" ∧
    nowInTimeZone (fun _ => [⟨"year", "2025"⟩, ⟨"month", "06"⟩,
        ⟨"day", "02"⟩, ⟨"hour", "14"⟩, ⟨"minute", "30"⟩,
        ⟨"second", "09"⟩, ⟨"weekday", "Mon"⟩]) (some "Asia/Tokyo") =
      ⟨.finite 2025, .finite 6, .finite 2, .finite 14, .finite 30,
       .finite 9, "Mon", "Asia/Tokyo"⟩ :=
  ⟨by decide,
   (nowInTimeZone_breakdown _ "Asia/Tokyo" (by decide)).2.2.trans
     (by decide)⟩

/-- Counterexample for C8: an invalid nonempty timezone string is NOT
replaced by the default — `tz || "Europe/Rome"` only defaults on
null/empty, so the invalid identifier reaches the platform formatter
unchanged (where `Intl.DateTimeFormat` raises a RangeError in a
browser), contradicting "absent or invalid uses Europe/Rome instead of
failing". -/
theorem nowInTimeZone_invalid_not_defaulted :
    (nowInTimeZone (fun _ => []) (some "Not/AZone")).timeZone =
        "Not/AZone" ∧
      ("Not/AZone" : String) ≠ "Europe/Rome" := by
  constructor <;> decide

end LocalClockClaims
